import Mathlib

/-!
Shallow embedding of `src/data/database.py` (the `Field` / `PrimaryKey` /
`Table` / `Database` layer) and proofs about its observable behaviour.

Python strings are Lean `String`s; Python runtime values that flow through
`revise_data` / `insert` are modelled by `PyVal` (the layer only ever sees
strings and non-strings such as ints); Python exceptions raised inside the
layer are modelled by `PyErr`; a Python `dict` is an insertion-ordered
association list with overwrite-in-place semantics.
-/

namespace DBSpec

/-- A Python runtime value as seen by this layer: a string or a non-string
(represented by the integer case, the one the spec discusses). -/
inductive PyVal where
  | str (s : String)
  | int (n : Int)
deriving DecidableEq, Repr

/-- Python `str(v)` / f-string interpolation of a value. -/
def PyVal.pyStr : PyVal → String
  | .str s => s
  | .int n => toString n

/-- Whether a value is a Python string. -/
def PyVal.isStr : PyVal → Bool
  | .str _ => true
  | .int _ => false

/-- Python `str(x)` where `x` is an optional value (`str(None) = "None"`). -/
def pyStrOpt : Option PyVal → String
  | none => "None"
  | some v => v.pyStr

/-- An exception raised by Python inside this layer (before any SQL is
handed to the store). -/
inductive PyErr where
  | indexError
  | typeError
  | keyError
deriving DecidableEq, Repr

/-- Python `list.insert(i, x)`: insert at position `i`, clamping to the end
when `i` is past the end (used by `PrimaryKey.to_list`). -/
def pyInsert {α : Type} (i : Nat) (x : α) : List α → List α
  | [] => [x]
  | a :: rest => if i = 0 then x :: a :: rest else a :: pyInsert (i - 1) x rest

/-- Python `sep.join(l)` on a list of strings. -/
def pyJoinStr (sep : String) : List String → String
  | [] => ""
  | [x] => x
  | x :: y :: rest => x ++ sep ++ pyJoinStr sep (y :: rest)

/-- Python `','.join(values)` on a list of runtime values: raises
`TypeError` when any element is not a string. -/
def pyJoinVals (sep : String) (vs : List PyVal) : Except PyErr String :=
  if vs.all PyVal.isStr then
    .ok (pyJoinStr sep (vs.map PyVal.pyStr))
  else
    .error .typeError

/-- Helper for `pySplit`: walk the characters, accumulating the current
word (reversed) and emitting it at each whitespace run. -/
def splitWsAux : List Char → List Char → List String
  | [], acc => if acc.isEmpty then [] else [String.mk acc.reverse]
  | c :: rest, acc =>
    if c.isWhitespace then
      if acc.isEmpty then splitWsAux rest []
      else String.mk acc.reverse :: splitWsAux rest []
    else
      splitWsAux rest (c :: acc)

/-- Python `s.split()` with no arguments: split on runs of whitespace,
discarding empty pieces. -/
def pySplit (s : String) : List String :=
  splitWsAux s.data []

/-- Python substring test `s.find(pat) != -1`. -/
def strFind (s pat : String) : Bool :=
  decide (pat.data <:+: s.data)

/-- Python `s.lower()`: lower-case character by character. -/
def strLower (s : String) : String :=
  String.mk (s.data.map Char.toLower)

/-- `Field` from `database.py`: one column of a table.  `others` is `None`
or a list of extra modifier strings (`isinstance(self.others, list)` is the
only shape the code acts on). -/
structure Field where
  name : String
  dtype : String
  null : Bool
  others : Option (List String)
deriving DecidableEq, Repr

/-- `Field.to_list`: `[name, dtype]`, then `'NOT NULL'` when not nullable,
then the extra modifiers when `others` is a list. -/
def Field.to_list (f : Field) : List String :=
  let elements := [f.name, f.dtype]
  let elements := if !f.null then elements ++ ["NOT NULL"] else elements
  match f.others with
  | some l => elements ++ l
  | none => elements

/-- `Field.to_str`: `' '.join(self.to_list())`. -/
def Field.to_str (f : Field) : String :=
  pyJoinStr " " f.to_list

/-- `PrimaryKey(Field)`: a `Field` subclass; only `to_list` is overridden. -/
structure PrimaryKey where
  toField : Field
deriving DecidableEq, Repr

/-- `PrimaryKey.to_list`: the superclass list with `'PRIMARY KEY'` inserted
at index 2. -/
def PrimaryKey.to_list (p : PrimaryKey) : List String :=
  pyInsert 2 "PRIMARY KEY" p.toField.to_list

/-- `to_str` as inherited by `PrimaryKey` (dispatches to the overridden
`to_list`). -/
def PrimaryKey.to_str (p : PrimaryKey) : String :=
  pyJoinStr " " p.to_list

/-- `PrimaryKey.id_as_primary()`: `PrimaryKey(name='id', dtype='INTEGER',
null=False)`. -/
def PrimaryKey.id_as_primary : PrimaryKey :=
  ⟨{ name := "id", dtype := "INTEGER", null := false, others := none }⟩

example : PrimaryKey.id_as_primary.to_list =
    ["id", "INTEGER", "PRIMARY KEY", "NOT NULL"] := by decide

example : PrimaryKey.id_as_primary.to_str = "id INTEGER PRIMARY KEY NOT NULL" := by
  decide

example : pySplit "a b INTEGER" = ["a", "b", "INTEGER"] := by decide

/-! ### Python `dict` as an insertion-ordered association list -/

/-- Python `d[k] = v`: overwrite in place when the key is present,
append otherwise. -/
def dictInsert {α : Type} : List (String × α) → String → α → List (String × α)
  | [], k, v => [(k, v)]
  | (k', v') :: rest, k, v =>
    if k' = k then (k, v) :: rest else (k', v') :: dictInsert rest k v

/-- Python `d[k]` lookup; `none` models a `KeyError`. -/
def dictGet {α : Type} : List (String × α) → String → Option α
  | [], _ => none
  | (k', v') :: rest, k => if k' = k then some v' else dictGet rest k

/-! ### `Table` -/

/-- `Table` from `database.py`: name, primary key, and the `fields` dict
built by `__init__` from `[primary] + fields` (a later field silently
overwrites an earlier one with the same name). -/
structure Table where
  name : String
  primary : PrimaryKey
  fields : List (String × Field)
deriving DecidableEq, Repr

/-- `Table.__init__(tname, primary, fields)`:
`for field in [primary] + fields: self.fields[field.name] = field`. -/
def mkTable (tname : String) (primary : PrimaryKey) (fields : List Field) : Table :=
  { name := tname
    primary := primary
    fields := (primary.toField :: fields).foldl (fun m f => dictInsert m f.name f) [] }

/-- `Table.get_field(fname)`: dict lookup, `KeyError` when absent. -/
def Table.get_field (t : Table) (fname : String) : Option Field :=
  dictGet t.fields fname

/-- Whether a field name is declared in the table (i.e. `get_field` would
not raise). -/
def Table.fieldKnown (t : Table) (fname : String) : Bool :=
  (t.get_field fname).isSome

/-- `Table.revise_data(field, value)`: wrap the value in single quotes when
the field's lower-cased declared type is `text` or contains `char`;
otherwise return it unchanged.  `none` models the `KeyError` from
`get_field` on an undeclared field. -/
def Table.revise_data (t : Table) (field : String) (value : PyVal) : Option PyVal :=
  match t.get_field field with
  | none => none
  | some f =>
    let dtype := strLower f.dtype
    if dtype = "text" || strFind dtype "char" then
      some (.str ("'" ++ value.pyStr ++ "'"))
    else
      some value

/-! ### `Database`

Only the pure, observable part of each method is embedded: the SQL text it
assembles, the errors Python raises before that text reaches the store,
and the in-memory `tables` map.  `connect` / `cursor` / `commit` / `close`
are connection plumbing with no bearing on the claims.  The sqlite store
itself is modelled by its catalog of existing table names (for
`create_table`) and by `storeFilter` below (for range queries). -/

/-- An error raised by the underlying sqlite store. -/
inductive SqlError where
  | tableExists
  | malformedClause
deriving DecidableEq, Repr

/-- `Database` state: the store's catalog of created tables and the
in-memory `self.tables` map. -/
structure Database where
  storeTables : List String
  tables : List (String × Table)
deriving DecidableEq, Repr

/-- `Database.create_table(tname, primary, fields)`: execute
`CREATE TABLE ...` and only afterwards record the new `Table` in
`self.tables`.  The store raises when the table already exists; a
malformed clause is abstracted by the `clauseOk` flag (sqlite's SQL parser
is outside this layer).  Returns the new state and the propagated store
error, if any. -/
def Database.create_table (db : Database) (tname : String) (primary : PrimaryKey)
    (fields : List Field) (clauseOk : Bool) : Database × Option SqlError :=
  if db.storeTables.contains tname then
    (db, some .tableExists)
  else if !clauseOk then
    (db, some .malformedClause)
  else
    ({ storeTables := db.storeTables ++ [tname]
       tables := dictInsert db.tables tname (mkTable tname primary fields) }, none)

/-- The loop in `Database.insert`:
`for idx, key in enumerate(keys): values[idx] = table.revise_data(key, values[idx])`.
Returns the values list as mutated so far together with the exception, if
one was raised: `IndexError` when `keys` outlasts `values`, `KeyError`
from `revise_data` on an undeclared field.  On an exception the elements
already processed stay mutated. -/
def reviseLoop (t : Table) : List String → List PyVal → List PyVal × Option PyErr
  | [], vs => (vs, none)
  | _ :: _, [] => ([], some .indexError)
  | k :: ks, v :: vs =>
    match t.revise_data k v with
    | none => (v :: vs, some .keyError)
    | some v' =>
      let r := reviseLoop t ks vs
      (v' :: r.1, r.2)

/-- `Database.insert(tname, keys, values)` up to the point the SQL text is
handed to the store: look the table up, run the revise loop over the
caller's `values` list in place, then build
`INSERT INTO {tname} ({",".join(keys)}) VALUES ({",".join(values)})`
(where the joining of `values` raises `TypeError` on any non-string).
Returns the statement or the Python error, together with the caller's
`values` list as left behind by the call. -/
def Database.insert (db : Database) (tname : String) (keys : List String)
    (values : List PyVal) : Except PyErr String × List PyVal :=
  match dictGet db.tables tname with
  | none => (.error .keyError, values)
  | some table =>
    let r := reviseLoop table keys values
    match r.2 with
    | some e => (.error e, r.1)
    | none =>
      match pyJoinVals "," r.1 with
      | .error e => (.error e, r.1)
      | .ok vstr =>
        (.ok ("INSERT INTO " ++ tname ++ " (" ++ pyJoinStr "," keys ++ ") VALUES ("
            ++ vstr ++ ")"), r.1)

/-! ### Range predicates (`search_by_range` / `delete_by_time`) -/

/-- One comparison of the two `search_by_range` / `delete_by_time` f-string
conditions: `Cmp.ge` stands for the `{key}>={...}` condition, `Cmp.le` for
`{key}<={...}`. -/
inductive Cmp where
  | ge
  | le
deriving DecidableEq, Repr

/-- A single emitted condition `{key}{cmp}{revised value text}`. -/
structure Cond where
  key : String
  cmp : Cmp
  value : String
deriving DecidableEq, Repr

/-- The SQL text of a condition, exactly as the f-strings build it. -/
def Cond.render (c : Cond) : String :=
  c.key ++ (match c.cmp with | .ge => ">=" | .le => "<=") ++ c.value

/-- The WHERE predicate `Database.search_by_range(tname, key, start, end)`
emits: both `start_condition = f'{key}>={table.revise_data(key, str(start))}'`
and `end_condition = f'{key}<={table.revise_data(key, str(end))}'` are
computed eagerly, then `start is None` selects the end condition alone,
`end is None` the start condition alone, and otherwise both are joined by
`and`.  `none` models the `KeyError` from the table or field lookup. -/
def Database.search_by_range_where (db : Database) (tname key : String)
    (start stop : Option PyVal) : Option (List Cond) :=
  match dictGet db.tables tname with
  | none => none
  | some table =>
    match table.revise_data key (.str (pyStrOpt start)),
          table.revise_data key (.str (pyStrOpt stop)) with
    | some sv, some ev =>
      let start_condition : Cond := ⟨key, .ge, sv.pyStr⟩
      let end_condition : Cond := ⟨key, .le, ev.pyStr⟩
      some (if start.isNone then [end_condition]
            else if stop.isNone then [start_condition]
            else [start_condition, end_condition])
    | _, _ => none

/-- The WHERE predicate `Database.delete_by_time(tname, time_key, start, end)`
emits; the construction is written out in that method's own body
(lines 276-286 of `database.py`), embedded here separately from
`search_by_range` so the two can be compared. -/
def Database.delete_by_time_where (db : Database) (tname time_key : String)
    (start stop : Option PyVal) : Option (List Cond) :=
  match dictGet db.tables tname with
  | none => none
  | some table =>
    match table.revise_data time_key (.str (pyStrOpt start)),
          table.revise_data time_key (.str (pyStrOpt stop)) with
    | some sv, some ev =>
      let start_condition : Cond := ⟨time_key, .ge, sv.pyStr⟩
      let end_condition : Cond := ⟨time_key, .le, ev.pyStr⟩
      some (if start.isNone then [end_condition]
            else if stop.isNone then [start_condition]
            else [start_condition, end_condition])
    | _, _ => none

/-- Numeric value of a list of decimal digit characters. -/
def digitsToNat (ds : List Char) : Nat :=
  ds.foldl (fun a c => a * 10 + (c.toNat - 48)) 0

/-- Modelled from the spec: the store reading the condition's value text
as an integer literal (an optional minus sign followed by digits). -/
def parseIntLit (s : String) : Option Int :=
  match s.data with
  | [] => none
  | '-' :: rest =>
    if rest ≠ [] ∧ rest.all Char.isDigit then some (-(digitsToNat rest : Int))
    else none
  | ds =>
    if ds.all Char.isDigit then some ((digitsToNat ds : Int)) else none

/-- Modelled from the spec: the underlying sqlite store evaluating one
emitted comparison against an INTEGER column value (the store parses the
condition's value text as an integer literal and compares). -/
def evalCond (k : Int) (c : Cond) : Bool :=
  match parseIntLit c.value with
  | some v => match c.cmp with | .ge => decide (v ≤ k) | .le => decide (k ≤ v)
  | none => false

/-- Modelled from the spec: the store returning exactly the rows of an
INTEGER column that satisfy every emitted condition. -/
def storeFilter (rows : List Int) (conds : List Cond) : List Int :=
  rows.filter (fun k => conds.all (evalCond k))

/-! ### Whitespace splitting versus joining -/

lemma splitWsAux_nonws (cs : List Char) (h : ∀ c ∈ cs, c.isWhitespace = false) :
    ∀ rest acc : List Char,
      splitWsAux (cs ++ rest) acc = splitWsAux rest (cs.reverse ++ acc) := by
  induction cs with
  | nil => intro rest acc; simp
  | cons c cs ih =>
    intro rest acc
    have hc : c.isWhitespace = false := h c (List.mem_cons_self _ _)
    have hcs : ∀ x ∈ cs, x.isWhitespace = false := fun x hx => h x (List.mem_cons_of_mem _ hx)
    simp only [List.cons_append, splitWsAux, hc, Bool.false_eq_true, if_false,
      List.append_eq]
    rw [ih hcs rest (c :: acc)]
    simp [List.append_assoc]

lemma splitWsAux_nil_of_ne (acc : List Char) (h : acc ≠ []) :
    splitWsAux [] acc = [String.mk acc.reverse] := by
  cases acc with
  | nil => exact absurd rfl h
  | cons a as => simp [splitWsAux]

lemma splitWsAux_space (rest acc : List Char) (h : acc ≠ []) :
    splitWsAux (' ' :: rest) acc = String.mk acc.reverse :: splitWsAux rest [] := by
  cases acc with
  | nil => exact absurd rfl h
  | cons a as => simp [splitWsAux]

lemma mk_data_eq (x : String) : String.mk x.data = x := rfl

lemma data_ne_nil_of_ne_empty {x : String} (h : x ≠ "") : x.data ≠ [] := by
  intro hd
  exact h (String.ext hd)

/-- Splitting `' '.join(l)` on whitespace recovers `l` when every token is
nonempty and free of whitespace. -/
lemma pySplit_pyJoinStr (l : List String)
    (h : ∀ x ∈ l, x ≠ "" ∧ ∀ c ∈ x.data, c.isWhitespace = false) :
    pySplit (pyJoinStr " " l) = l := by
  induction l with
  | nil => rfl
  | cons x l ih =>
    obtain ⟨hne, hws⟩ := h x (List.mem_cons_self _ _)
    have hdata := data_ne_nil_of_ne_empty hne
    have hrev : x.data.reverse ≠ [] := by
      simpa using hdata
    cases l with
    | nil =>
      show splitWsAux (pyJoinStr " " [x]).data [] = [x]
      have hx : pyJoinStr " " [x] = x := rfl
      rw [hx]
      have := splitWsAux_nonws x.data hws [] []
      simp only [List.append_nil] at this
      rw [this, splitWsAux_nil_of_ne _ hrev, List.reverse_reverse, mk_data_eq]
    | cons y l =>
      have hrest : ∀ z ∈ y :: l, z ≠ "" ∧ ∀ c ∈ z.data, c.isWhitespace = false :=
        fun z hz => h z (List.mem_cons_of_mem _ hz)
      have hjoin : pyJoinStr " " (x :: y :: l) = x ++ " " ++ pyJoinStr " " (y :: l) := rfl
      show pySplit (pyJoinStr " " (x :: y :: l)) = x :: y :: l
      rw [hjoin]
      unfold pySplit
      rw [String.data_append, String.data_append]
      have hsp : (" " : String).data = [' '] := rfl
      rw [hsp, List.append_assoc, List.singleton_append,
        splitWsAux_nonws x.data hws (' ' :: (pyJoinStr " " (y :: l)).data) [],
        List.append_nil, splitWsAux_space _ _ hrev, List.reverse_reverse, mk_data_eq]
      exact congrArg (x :: ·) (ih hrest)

/-! ### Claims C1 and C2 -/

/-- C1 counterexample: for the primary key produced by `id_as_primary`,
splitting `to_str()` on whitespace does NOT reproduce `to_list()`: the
inserted token `"PRIMARY KEY"` itself contains a space, so the split
yields `["id", "INTEGER", "PRIMARY", "KEY", "NOT NULL"]` while `to_list()`
is `["id", "INTEGER", "PRIMARY KEY", "NOT NULL"]`. -/
theorem C1_split_counterexample :
    pySplit PrimaryKey.id_as_primary.to_str ≠ PrimaryKey.id_as_primary.to_list := by
  decide

/-- C1 (amended): for every `Field` instance all of whose `to_list()`
tokens are nonempty and contain no whitespace, splitting the string
returned by `to_str()` on whitespace yields exactly the list returned by
`to_list()`, in the same order.  (For `PrimaryKey` the property fails in
general, since the inserted `"PRIMARY KEY"` token contains a space.) -/
theorem C1_split_amended (f : Field)
    (h : ∀ x ∈ f.to_list, x ≠ "" ∧ ∀ c ∈ x.data, c.isWhitespace = false) :
    pySplit f.to_str = f.to_list :=
  pySplit_pyJoinStr f.to_list h

/-- Witness for `C1_split_amended` at the field `name TEXT NOT NULL`. -/
theorem C1_split_amended_witness :
    (∀ x ∈ (Field.mk "name" "TEXT" true none).to_list,
        x ≠ "" ∧ ∀ c ∈ x.data, c.isWhitespace = false) ∧
      pySplit (Field.mk "name" "TEXT" true none).to_str =
        (Field.mk "name" "TEXT" true none).to_list :=
  ⟨by decide, C1_split_amended (Field.mk "name" "TEXT" true none) (by decide)⟩

/-- C2 counterexample: `id_as_primary()` is constructed with `null=False`,
so its rendering is `id INTEGER PRIMARY KEY NOT NULL`, not the claimed
`id INTEGER PRIMARY KEY`. -/
theorem C2_id_as_primary_counterexample :
    PrimaryKey.id_as_primary.to_str ≠ "id INTEGER PRIMARY KEY" := by
  decide

/-- C2 (amended): `PrimaryKey.id_as_primary()` always returns a field
named `id`, of declared type `INTEGER`, non-nullable, and its `to_str()`
rendering is exactly `id INTEGER PRIMARY KEY NOT NULL` (the `PRIMARY KEY`
token is inserted as the third token, before `NOT NULL`). -/
theorem C2_id_as_primary_amended :
    PrimaryKey.id_as_primary.toField.name = "id" ∧
    PrimaryKey.id_as_primary.toField.dtype = "INTEGER" ∧
    PrimaryKey.id_as_primary.toField.null = false ∧
    PrimaryKey.id_as_primary.to_list = ["id", "INTEGER", "PRIMARY KEY", "NOT NULL"] ∧
    PrimaryKey.id_as_primary.to_str = "id INTEGER PRIMARY KEY NOT NULL" := by
  refine ⟨rfl, rfl, rfl, by decide, by decide⟩

/-! ### Dict lemmas -/

lemma dictGet_dictInsert_self {α : Type} (m : List (String × α)) (k : String) (v : α) :
    dictGet (dictInsert m k v) k = some v := by
  induction m with
  | nil => simp [dictInsert, dictGet]
  | cons hd m ih =>
    obtain ⟨hk, hv⟩ := hd
    by_cases hke : hk = k
    · simp [dictInsert, dictGet, hke]
    · simp [dictInsert, dictGet, hke, ih]

lemma dictGet_dictInsert_ne {α : Type} (m : List (String × α)) (k k' : String) (v : α)
    (h : k' ≠ k) : dictGet (dictInsert m k' v) k = dictGet m k := by
  induction m with
  | nil => simp [dictInsert, dictGet, h]
  | cons hd m ih =>
    obtain ⟨hk, hv⟩ := hd
    by_cases hke : hk = k'
    · subst hke
      simp [dictInsert, dictGet, h]
    · simp only [dictInsert, hke, if_false]
      by_cases hkk : hk = k
      · simp [dictGet, hkk]
      · simp [dictGet, hkk, ih]

lemma foldl_dictInsert_of_ne (k : String) :
    ∀ (fs : List Field) (m : List (String × Field)), (∀ f ∈ fs, f.name ≠ k) →
      dictGet (fs.foldl (fun m f => dictInsert m f.name f) m) k = dictGet m k := by
  intro fs
  induction fs with
  | nil => intro m _; rfl
  | cons f fs ih =>
    intro m h
    have hf : f.name ≠ k := h f (List.mem_cons_self _ _)
    have hfs : ∀ g ∈ fs, g.name ≠ k := fun g hg => h g (List.mem_cons_of_mem _ hg)
    simp only [List.foldl_cons]
    rw [ih _ hfs, dictGet_dictInsert_ne _ _ _ _ hf]

/-! ### Example tables shared by the witnesses -/

/-- A table with a TEXT column `name` and an INTEGER column `age`, as in
the spec's examples. -/
def person : Table :=
  mkTable "person" PrimaryKey.id_as_primary
    [⟨"name", "TEXT", true, none⟩, ⟨"age", "INTEGER", true, none⟩]

/-- A database whose store and in-memory map both hold `person`. -/
def exampleDb : Database :=
  ⟨["person"], [("person", person)]⟩

/-! ### Claims C4, C7, C8 -/

/-- C4: `revise_data(field, value)` wraps the value in single quotes
exactly when the field's declared type, lower-cased, is `text` or contains
the substring `char`; any other declared type returns the value
unchanged. -/
theorem C4_revise_data (t : Table) (field : String) (f : Field) (v : PyVal)
    (hf : t.get_field field = some f) :
    (strLower f.dtype = "text" ∨ strFind (strLower f.dtype) "char" = true →
      t.revise_data field v = some (.str ("'" ++ v.pyStr ++ "'"))) ∧
    (strLower f.dtype ≠ "text" → strFind (strLower f.dtype) "char" = false →
      t.revise_data field v = some v) := by
  constructor
  · intro hcase
    unfold Table.revise_data
    rw [hf]
    rcases hcase with h | h <;> simp [h]
  · intro h1 h2
    unfold Table.revise_data
    rw [hf]
    simp [h1, h2]

/-- Witness for `C4_revise_data`: on `person`, `revise_data("name",
"Alice")` yields `'Alice'` and `revise_data("age", 30)` yields `30`
unchanged. -/
theorem C4_revise_data_witness :
    person.get_field "name" = some ⟨"name", "TEXT", true, none⟩ ∧
    person.get_field "age" = some ⟨"age", "INTEGER", true, none⟩ ∧
    person.revise_data "name" (.str "Alice") = some (.str "'Alice'") ∧
    person.revise_data "age" (.int 30) = some (.int 30) :=
  ⟨by decide, by decide,
    (C4_revise_data person "name" ⟨"name", "TEXT", true, none⟩ (.str "Alice")
      (by decide)).1 (Or.inl (by decide)),
    (C4_revise_data person "age" ⟨"age", "INTEGER", true, none⟩ (.int 30)
      (by decide)).2 (by decide) (by decide)⟩

/-- C7: `create_table` records the new `Table` in the in-memory map only
after the store accepted the CREATE TABLE statement; a store error
(existing table or malformed clause) propagates and leaves the state,
in particular the tables map, unchanged. -/
theorem C7_create_table (db : Database) (tname : String) (p : PrimaryKey)
    (fields : List Field) (clauseOk : Bool) :
    (db.storeTables.contains tname = false → clauseOk = true →
      (db.create_table tname p fields clauseOk).2 = none ∧
        dictGet (db.create_table tname p fields clauseOk).1.tables tname =
          some (mkTable tname p fields)) ∧
    (db.storeTables.contains tname = true ∨ clauseOk = false →
      ((db.create_table tname p fields clauseOk).2).isSome = true ∧
        (db.create_table tname p fields clauseOk).1 = db) := by
  constructor
  · intro hmem hok
    have hmem' : tname ∉ db.storeTables := by simpa using hmem
    unfold Database.create_table
    simp [hmem', hok, dictGet_dictInsert_self]
  · intro hcase
    unfold Database.create_table
    rcases hcase with h | h
    · have h' : tname ∈ db.storeTables := by simpa using h
      simp [h']
    · by_cases hmem : tname ∈ db.storeTables <;> simp [hmem, h]

/-- Witness for `C7_create_table`: creating `person` in an empty database
succeeds and records it; creating it again in `exampleDb` fails and
leaves the state unchanged. -/
theorem C7_create_table_witness :
    ((Database.mk [] []).storeTables.contains "person" = false ∧
      ((Database.mk [] []).create_table "person" PrimaryKey.id_as_primary
          [⟨"name", "TEXT", true, none⟩, ⟨"age", "INTEGER", true, none⟩] true).2 = none ∧
      dictGet ((Database.mk [] []).create_table "person" PrimaryKey.id_as_primary
          [⟨"name", "TEXT", true, none⟩, ⟨"age", "INTEGER", true, none⟩] true).1.tables
          "person" = some person) ∧
    (exampleDb.storeTables.contains "person" = true ∧
      ((exampleDb.create_table "person" PrimaryKey.id_as_primary [] true).2).isSome = true ∧
      (exampleDb.create_table "person" PrimaryKey.id_as_primary [] true).1 = exampleDb) := by
  refine ⟨⟨by decide, ?_⟩, ⟨by decide, ?_⟩⟩
  · exact (C7_create_table (Database.mk [] []) "person" PrimaryKey.id_as_primary
      [⟨"name", "TEXT", true, none⟩, ⟨"age", "INTEGER", true, none⟩] true).1
      (by decide) rfl
  · exact (C7_create_table exampleDb "person" PrimaryKey.id_as_primary [] true).2
      (Or.inl (by decide))

/-- C8 counterexample: when a field in the list shares the primary key's
name, `Table.__init__` overwrites the primary key entry, so the fields
map does NOT contain the primary key object under its own name. -/
theorem C8_primary_entry_counterexample :
    (mkTable "t" (PrimaryKey.mk ⟨"id", "INTEGER", false, none⟩)
        [⟨"id", "TEXT", true, none⟩]).get_field "id" ≠
      some (PrimaryKey.mk ⟨"id", "INTEGER", false, none⟩).toField := by
  decide

/-- C8 (amended): for every `Table` built by the constructor from a
primary key and a list of fields none of which reuses the primary key's
name, the fields mapping contains the primary key object under the
primary key's own name. -/
theorem C8_primary_entry_amended (tname : String) (p : PrimaryKey) (fields : List Field)
    (h : ∀ f ∈ fields, f.name ≠ p.toField.name) :
    (mkTable tname p fields).get_field p.toField.name = some p.toField := by
  unfold mkTable Table.get_field
  simp only [List.foldl_cons]
  rw [foldl_dictInsert_of_ne _ fields _ h, dictGet_dictInsert_self]

/-- Witness for `C8_primary_entry_amended` on the `person` table. -/
theorem C8_primary_entry_amended_witness :
    (∀ f ∈ [Field.mk "name" "TEXT" true none, Field.mk "age" "INTEGER" true none],
        f.name ≠ PrimaryKey.id_as_primary.toField.name) ∧
      person.get_field PrimaryKey.id_as_primary.toField.name =
        some PrimaryKey.id_as_primary.toField :=
  ⟨by decide,
    C8_primary_entry_amended "person" PrimaryKey.id_as_primary
      [⟨"name", "TEXT", true, none⟩, ⟨"age", "INTEGER", true, none⟩] (by decide)⟩

/-! ### Lemmas about the insert layer -/

/-- Whether a column's declared type is textual in the sense of
`revise_data` (lower-cased type is `text` or contains `char`). -/
def Table.textual (t : Table) (fname : String) : Bool :=
  match t.get_field fname with
  | some f => decide (strLower f.dtype = "text") || strFind (strLower f.dtype) "char"
  | none => false

lemma revise_data_isSome (t : Table) (k : String) (h : t.fieldKnown k = true)
    (v : PyVal) : ∃ v', t.revise_data k v = some v' := by
  unfold Table.fieldKnown at h
  obtain ⟨f, hf⟩ := Option.isSome_iff_exists.mp h
  unfold Table.revise_data
  rw [hf]
  dsimp only
  split
  · exact ⟨_, rfl⟩
  · exact ⟨_, rfl⟩

lemma revise_data_str (t : Table) (k : String) (h : t.fieldKnown k = true)
    (s : String) : ∃ s', t.revise_data k (.str s) = some (.str s') := by
  unfold Table.fieldKnown at h
  obtain ⟨f, hf⟩ := Option.isSome_iff_exists.mp h
  unfold Table.revise_data
  rw [hf]
  dsimp only
  split
  · exact ⟨_, rfl⟩
  · exact ⟨s, rfl⟩

lemma revise_data_textual (t : Table) (k : String) (h : t.textual k = true)
    (v : PyVal) : t.revise_data k v = some (.str ("'" ++ v.pyStr ++ "'")) := by
  unfold Table.textual at h
  unfold Table.revise_data
  cases hf : t.get_field k with
  | none => rw [hf] at h; simp at h
  | some f =>
    rw [hf] at h
    dsimp only at h ⊢
    simp only [h, if_true]

lemma revise_data_not_textual (t : Table) (k : String) (f : Field)
    (hf : t.get_field k = some f) (h1 : strLower f.dtype ≠ "text")
    (h2 : strFind (strLower f.dtype) "char" = false) (v : PyVal) :
    t.revise_data k v = some v := by
  unfold Table.revise_data
  rw [hf]
  simp [h1, h2]

lemma reviseLoop_err_none (t : Table) : ∀ (keys : List String) (values : List PyVal),
    (∀ k ∈ keys, t.fieldKnown k = true) → keys.length ≤ values.length →
    (reviseLoop t keys values).2 = none := by
  intro keys
  induction keys with
  | nil => intro values _ _; rfl
  | cons k ks ih =>
    intro values h hlen
    cases values with
    | nil => simp at hlen
    | cons v vs =>
      obtain ⟨v', hv'⟩ := revise_data_isSome t k (h k (List.mem_cons_self _ _)) v
      simp only [reviseLoop, hv']
      exact ih vs (fun x hx => h x (List.mem_cons_of_mem _ hx)) (by simpa using hlen)

lemma reviseLoop_err_index (t : Table) : ∀ (keys : List String) (values : List PyVal),
    (∀ k ∈ keys, t.fieldKnown k = true) → values.length < keys.length →
    (reviseLoop t keys values).2 = some .indexError := by
  intro keys
  induction keys with
  | nil => intro values _ hlen; simp at hlen
  | cons k ks ih =>
    intro values h hlen
    cases values with
    | nil => rfl
    | cons v vs =>
      obtain ⟨v', hv'⟩ := revise_data_isSome t k (h k (List.mem_cons_self _ _)) v
      simp only [reviseLoop, hv']
      exact ih vs (fun x hx => h x (List.mem_cons_of_mem _ hx)) (by simpa using hlen)

lemma reviseLoop_get (t : Table) : ∀ (keys : List String) (values : List PyVal),
    (∀ k ∈ keys, t.fieldKnown k = true) →
    ∀ (i : Nat) (hik : i < keys.length) (hiv : i < values.length),
      ((reviseLoop t keys values).1).get? i =
        t.revise_data (keys.get ⟨i, hik⟩) (values.get ⟨i, hiv⟩) := by
  intro keys
  induction keys with
  | nil => intro values _ i hik; exact absurd hik (by simp)
  | cons k ks ih =>
    intro values h i hik hiv
    cases values with
    | nil => simp at hiv
    | cons v vs =>
      obtain ⟨v', hv'⟩ := revise_data_isSome t k (h k (List.mem_cons_self _ _)) v
      simp only [reviseLoop, hv']
      cases i with
      | zero => simp [hv']
      | succ j =>
        simp only [List.get?_cons_succ, List.get_cons_succ]
        exact ih vs (fun x hx => h x (List.mem_cons_of_mem _ hx)) j
          (by simpa using hik) (by simpa using hiv)

lemma reviseLoop_all_str_of (t : Table) : ∀ (keys : List String) (values : List PyVal),
    (∀ k ∈ keys, t.fieldKnown k = true) →
    keys.length = values.length →
    (∀ p ∈ keys.zip values, t.textual p.1 = true ∨ p.2.isStr = true) →
    ∀ v ∈ (reviseLoop t keys values).1, v.isStr = true := by
  intro keys
  induction keys with
  | nil =>
    intro values _ hlen _ v hv
    cases values with
    | nil => simp [reviseLoop] at hv
    | cons a vs => simp at hlen
  | cons k ks ih =>
    intro values h hlen hcol v hv
    cases values with
    | nil => simp at hlen
    | cons w vs =>
      have hk : t.fieldKnown k = true := h k (List.mem_cons_self _ _)
      obtain ⟨v', hv'⟩ := revise_data_isSome t k hk w
      have hstr : v'.isStr = true := by
        rcases hcol (k, w) (by simp [List.zip_cons_cons]) with htex | hs
        · rw [revise_data_textual t k htex w] at hv'
          rw [← Option.some_inj.mp hv']
          rfl
        · cases w with
          | int n => simp [PyVal.isStr] at hs
          | str s =>
            obtain ⟨s', hs'⟩ := revise_data_str t k hk s
            rw [hs'] at hv'
            rw [← Option.some_inj.mp hv']
            rfl
      simp only [reviseLoop, hv'] at hv
      rcases List.mem_cons.mp hv with rfl | hmem
      · exact hstr
      · exact ih vs (fun x hx => h x (List.mem_cons_of_mem _ hx)) (by simpa using hlen)
          (fun p hp => hcol p (by simp [List.zip_cons_cons, hp]))
          v hmem

lemma reviseLoop_all_str (t : Table) : ∀ (keys : List String) (values : List PyVal),
    (∀ k ∈ keys, t.fieldKnown k = true) →
    (∀ v ∈ values, v.isStr = true) →
    ∀ v ∈ (reviseLoop t keys values).1, v.isStr = true := by
  intro keys
  induction keys with
  | nil => intro values _ hstr v hv; exact hstr v hv
  | cons k ks ih =>
    intro values h hstr v hv
    cases values with
    | nil => simp [reviseLoop] at hv
    | cons w vs =>
      have hk : t.fieldKnown k = true := h k (List.mem_cons_self _ _)
      obtain ⟨v', hv'⟩ := revise_data_isSome t k hk w
      have hw : v'.isStr = true := by
        cases w with
        | int n =>
          have := hstr (.int n) (List.mem_cons_self _ _)
          simp [PyVal.isStr] at this
        | str s =>
          obtain ⟨s', hs'⟩ := revise_data_str t k hk s
          rw [hs'] at hv'
          rw [← Option.some_inj.mp hv']
          rfl
      simp only [reviseLoop, hv'] at hv
      rcases List.mem_cons.mp hv with rfl | hmem
      · exact hw
      · exact ih vs (fun x hx => h x (List.mem_cons_of_mem _ hx))
          (fun x hx => hstr x (List.mem_cons_of_mem _ hx)) v hmem

lemma pyJoinVals_ok_of_str (sep : String) (vs : List PyVal)
    (h : ∀ v ∈ vs, v.isStr = true) : ∃ out, pyJoinVals sep vs = .ok out := by
  unfold pyJoinVals
  rw [if_pos (List.all_eq_true.mpr h)]
  exact ⟨_, rfl⟩

lemma pyJoinVals_typeError (sep : String) (vs : List PyVal) (n : Int)
    (h : (.int n) ∈ vs) : pyJoinVals sep vs = .error .typeError := by
  unfold pyJoinVals
  rw [if_neg]
  intro hall
  have := List.all_eq_true.mp hall _ h
  simp [PyVal.isStr] at this

lemma insert_snd (db : Database) (tname : String) (t : Table) (keys : List String)
    (values : List PyVal) (ht : dictGet db.tables tname = some t) :
    (db.insert tname keys values).2 = (reviseLoop t keys values).1 := by
  unfold Database.insert
  rw [ht]
  dsimp only
  cases he : (reviseLoop t keys values).2 with
  | some e => rfl
  | none =>
    cases hj : pyJoinVals "," (reviseLoop t keys values).1 with
    | error e => rfl
    | ok vstr => rfl

lemma insert_fst_of_loop_err (db : Database) (tname : String) (t : Table)
    (keys : List String) (values : List PyVal) (e : PyErr)
    (ht : dictGet db.tables tname = some t)
    (he : (reviseLoop t keys values).2 = some e) :
    (db.insert tname keys values).1 = .error e := by
  unfold Database.insert
  rw [ht]
  dsimp only
  rw [he]

lemma insert_fst_of_join (db : Database) (tname : String) (t : Table)
    (keys : List String) (values : List PyVal)
    (ht : dictGet db.tables tname = some t)
    (he : (reviseLoop t keys values).2 = none) :
    (db.insert tname keys values).1 =
      match pyJoinVals "," (reviseLoop t keys values).1 with
      | .error e => .error e
      | .ok vstr => .ok ("INSERT INTO " ++ tname ++ " (" ++ pyJoinStr "," keys
          ++ ") VALUES (" ++ vstr ++ ")") := by
  unfold Database.insert
  rw [ht]
  dsimp only
  rw [he]
  cases hj : pyJoinVals "," (reviseLoop t keys values).1 with
  | error e => rfl
  | ok vstr => rfl

/-! ### Claims C3, C9, C10 -/

/-- C3 counterexample: with more keys than values, `insert` raises an
`IndexError` in this layer (in the `values[idx] = revise_data(...)` loop)
before any SQL statement is issued — the mismatch is NOT left to the
store. -/
theorem C3_arity_counterexample :
    (exampleDb.insert "person" ["name", "age"] [.str "Bob"]).1 =
      .error .indexError := by
  rfl

/-- C3 (amended): `insert` performs no arity check when `values` is at
least as long as `keys` — extra values flow into the emitted statement
and any mismatch is left to the store; but when `keys` is longer than
`values`, the revise loop raises an `IndexError` in this layer before any
statement is issued. -/
theorem C3_arity_amended (db : Database) (tname : String) (t : Table)
    (keys : List String) (values : List PyVal)
    (ht : dictGet db.tables tname = some t)
    (hk : ∀ k ∈ keys, t.fieldKnown k = true) :
    (values.length < keys.length →
      (db.insert tname keys values).1 = .error .indexError) ∧
    (keys.length ≤ values.length → (∀ v ∈ values, v.isStr = true) →
      ∃ stmt, (db.insert tname keys values).1 = .ok stmt) := by
  constructor
  · intro hlen
    exact insert_fst_of_loop_err db tname t keys values _ ht
      (reviseLoop_err_index t keys values hk hlen)
  · intro hlen hstr
    have herr := reviseLoop_err_none t keys values hk hlen
    have hall := reviseLoop_all_str t keys values hk hstr
    obtain ⟨out, hout⟩ := pyJoinVals_ok_of_str "," _ hall
    rw [insert_fst_of_join db tname t keys values ht herr, hout]
    exact ⟨_, rfl⟩

/-- Witness for `C3_arity_amended`: on `person`, two keys with one value
raise the layer `IndexError`; two keys with three values produce a
statement (the mismatch is left to the store). -/
theorem C3_arity_amended_witness :
    (dictGet exampleDb.tables "person" = some person ∧
      ∀ k ∈ ["name", "age"], person.fieldKnown k = true) ∧
    (exampleDb.insert "person" ["name", "age"] [.str "Bob"]).1 =
      .error .indexError ∧
    ∃ stmt, (exampleDb.insert "person" ["name", "age"]
        [.str "'Bob'", .str "30", .str "extra"]).1 = .ok stmt := by
  refine ⟨⟨by decide, by decide⟩, ?_, ?_⟩
  · exact (C3_arity_amended exampleDb "person" person ["name", "age"] [.str "Bob"]
      (by decide) (by decide)).1 (by decide)
  · exact (C3_arity_amended exampleDb "person" person ["name", "age"]
      [.str "'Bob'", .str "30", .str "extra"] (by decide) (by decide)).2
      (by decide) (by decide)

/-- C9: `insert(tname, keys, values)` mutates the caller's `values` list
in place — after the call, for every position `i` covered by `keys`,
`values[i]` has been replaced by `revise_data(keys[i], values[i])` (this
happens before the statement reaches the store, so it persists even when
the store then fails). -/
theorem C9_insert_mutates (db : Database) (tname : String) (t : Table)
    (keys : List String) (values : List PyVal)
    (ht : dictGet db.tables tname = some t)
    (hk : ∀ k ∈ keys, t.fieldKnown k = true)
    (i : Nat) (hik : i < keys.length) (hiv : i < values.length) :
    ((db.insert tname keys values).2).get? i =
      t.revise_data (keys.get ⟨i, hik⟩) (values.get ⟨i, hiv⟩) := by
  rw [insert_snd db tname t keys values ht]
  exact reviseLoop_get t keys values hk i hik hiv

/-- Witness for `C9_insert_mutates`: after inserting `("Alice", 30)` into
`person`, the caller's list holds the quote-wrapped `'Alice'` at
position 0. -/
theorem C9_insert_mutates_witness :
    (dictGet exampleDb.tables "person" = some person ∧
      ∀ k ∈ ["name", "age"], person.fieldKnown k = true) ∧
    ((exampleDb.insert "person" ["name", "age"]
        [.str "Alice", .int 30]).2).get? 0 = some (.str "'Alice'") := by
  refine ⟨⟨by decide, by decide⟩, ?_⟩
  rw [C9_insert_mutates exampleDb "person" person ["name", "age"]
    [.str "Alice", .int 30] (by decide) (by decide) 0 (by decide) (by decide)]
  decide

/-- C10: `insert` requires every value bound to a non-textual column to
already be a string: a non-string value for such a column passes through
`revise_data` unchanged and then makes `','.join(values)` raise a
`TypeError` in this layer, before any SQL statement is issued; values of
textual columns (and string values everywhere) are accepted, the textual
ones being stringified by the quote-wrapping. -/
theorem C10_insert_string_precondition (db : Database) (tname : String) (t : Table)
    (keys : List String) (values : List PyVal)
    (ht : dictGet db.tables tname = some t)
    (hk : ∀ k ∈ keys, t.fieldKnown k = true)
    (hlen : keys.length = values.length) :
    ((∃ i, ∃ hik : i < keys.length, ∃ hiv : i < values.length, ∃ f n,
        t.get_field (keys.get ⟨i, hik⟩) = some f ∧
        strLower f.dtype ≠ "text" ∧ strFind (strLower f.dtype) "char" = false ∧
        values.get ⟨i, hiv⟩ = .int n) →
      (db.insert tname keys values).1 = .error .typeError) ∧
    ((∀ p ∈ keys.zip values, t.textual p.1 = true ∨ p.2.isStr = true) →
      ∃ stmt, (db.insert tname keys values).1 = .ok stmt) := by
  have herr := reviseLoop_err_none t keys values hk (le_of_eq hlen)
  constructor
  · rintro ⟨i, hik, hiv, f, n, hgf, h1, h2, hval⟩
    have hrev : t.revise_data (keys.get ⟨i, hik⟩) (values.get ⟨i, hiv⟩) =
        some (.int n) := by
      rw [revise_data_not_textual t _ f hgf h1 h2, hval]
    have hget : ((reviseLoop t keys values).1).get? i = some (.int n) := by
      rw [reviseLoop_get t keys values hk i hik hiv, hrev]
    have hmem : (.int n) ∈ (reviseLoop t keys values).1 := List.get?_mem hget
    rw [insert_fst_of_join db tname t keys values ht herr,
      pyJoinVals_typeError "," _ n hmem]
  · intro hcol
    have hall := reviseLoop_all_str_of t keys values hk hlen hcol
    obtain ⟨out, hout⟩ := pyJoinVals_ok_of_str "," _ hall
    rw [insert_fst_of_join db tname t keys values ht herr, hout]
    exact ⟨_, rfl⟩

/-- Witness for `C10_insert_string_precondition`: inserting the integer
`30` for the INTEGER column `age` raises the layer `TypeError`; inserting
a non-string for the TEXT column `name` together with a string for `age`
is accepted. -/
theorem C10_insert_string_precondition_witness :
    (dictGet exampleDb.tables "person" = some person ∧
      (∀ k ∈ ["name", "age"], person.fieldKnown k = true)) ∧
    (exampleDb.insert "person" ["name", "age"] [.str "Alice", .int 30]).1 =
      .error .typeError ∧
    ∃ stmt, (exampleDb.insert "person" ["name", "age"]
        [.int 7, .str "30"]).1 = .ok stmt := by
  refine ⟨⟨by decide, by decide⟩, ?_, ?_⟩
  · exact (C10_insert_string_precondition exampleDb "person" person ["name", "age"]
      [.str "Alice", .int 30] (by decide) (by decide) (by decide)).1
      ⟨1, by decide, by decide, ⟨"age", "INTEGER", true, none⟩, 30,
        by decide, by decide, by decide, by decide⟩
  · exact (C10_insert_string_precondition exampleDb "person" person ["name", "age"]
      [.int 7, .str "30"] (by decide) (by decide) (by decide)).2 (by decide)

/-! ### Claims C5 and C6 -/

/-- C5: `search_by_range` emits `key<=end` alone when `start` is `None`,
`key>=start` alone when `end` is `None`, and `key>=start and key<=end`
when both are given; on an INTEGER key the store model returns exactly
the rows with `key ≤ 10` for the predicate `key<=10` and exactly those
with `key ≥ 5` for `key>=5`. -/
theorem C5_search_by_range_bounds (db : Database) (tname key : String)
    (t : Table) (f : Field)
    (ht : dictGet db.tables tname = some t)
    (hf : t.get_field key = some f)
    (hdt : f.dtype = "INTEGER") (s e : Int) :
    (db.search_by_range_where tname key none (some (.int e)) =
        some [⟨key, .le, toString e⟩]) ∧
    (db.search_by_range_where tname key (some (.int s)) none =
        some [⟨key, .ge, toString s⟩]) ∧
    (db.search_by_range_where tname key (some (.int s)) (some (.int e)) =
        some [⟨key, .ge, toString s⟩, ⟨key, .le, toString e⟩]) ∧
    (∀ rows : List Int, storeFilter rows [⟨key, .le, "10"⟩] =
        rows.filter (fun k => decide (k ≤ 10))) ∧
    (∀ rows : List Int, storeFilter rows [⟨key, .ge, "5"⟩] =
        rows.filter (fun k => decide (5 ≤ k))) := by
  have h1 : strLower f.dtype ≠ "text" := by rw [hdt]; decide
  have h2 : strFind (strLower f.dtype) "char" = false := by rw [hdt]; decide
  have hrev : ∀ v, t.revise_data key v = some v :=
    revise_data_not_textual t key f hf h1 h2
  refine ⟨?_, ?_, ?_, ?_, ?_⟩
  · unfold Database.search_by_range_where
    rw [ht]
    dsimp only
    rw [hrev, hrev]
    simp [pyStrOpt, PyVal.pyStr]
  · unfold Database.search_by_range_where
    rw [ht]
    dsimp only
    rw [hrev, hrev]
    simp [pyStrOpt, PyVal.pyStr]
  · unfold Database.search_by_range_where
    rw [ht]
    dsimp only
    rw [hrev, hrev]
    simp [pyStrOpt, PyVal.pyStr]
  · intro rows
    unfold storeFilter
    apply List.filter_congr
    intro a _
    have hp : parseIntLit "10" = some 10 := by decide
    simp [evalCond, hp]
  · intro rows
    unfold storeFilter
    apply List.filter_congr
    intro a _
    have hp : parseIntLit "5" = some 5 := by decide
    simp [evalCond, hp]

/-- Witness for `C5_search_by_range_bounds` on the INTEGER column `age`
of `person`, at `start=5`, `end=10` and rows `[3, 10, 11]`. -/
theorem C5_search_by_range_bounds_witness :
    (dictGet exampleDb.tables "person" = some person ∧
      person.get_field "age" = some ⟨"age", "INTEGER", true, none⟩) ∧
    exampleDb.search_by_range_where "person" "age" none (some (.int 10)) =
      some [⟨"age", .le, toString (10 : Int)⟩] ∧
    exampleDb.search_by_range_where "person" "age" (some (.int 5)) none =
      some [⟨"age", .ge, toString (5 : Int)⟩] ∧
    storeFilter [3, 10, 11] [⟨"age", .le, "10"⟩] =
      List.filter (fun k => decide (k ≤ 10)) [3, 10, 11] ∧
    storeFilter [3, 10, 11] [⟨"age", .ge, "5"⟩] =
      List.filter (fun k => decide (5 ≤ k)) [3, 10, 11] := by
  have h := C5_search_by_range_bounds exampleDb "person" "age" person
    ⟨"age", "INTEGER", true, none⟩ (by decide) (by decide) (by decide) 5 10
  exact ⟨⟨by decide, by decide⟩, h.1, h.2.1, h.2.2.2.1 [3, 10, 11], h.2.2.2.2 [3, 10, 11]⟩

/-- C6: for every table, key, start and end (not both `None`),
`delete_by_time` builds exactly the same WHERE predicate — the same two
f-string comparisons, the same branch on a `None` start or end, the same
per-type value revision — as `search_by_range` does for the same
arguments; the surrounding statements differ only in DELETE versus
SELECT. -/
theorem C6_delete_by_time_same_predicate (db : Database) (tname key : String)
    (start stop : Option PyVal) (h : ¬(start = none ∧ stop = none)) :
    db.delete_by_time_where tname key start stop =
      db.search_by_range_where tname key start stop := by
  unfold Database.delete_by_time_where Database.search_by_range_where
  rfl

/-- Witness for `C6_delete_by_time_same_predicate` at `start=5`,
`end=None` on `person`. -/
theorem C6_delete_by_time_same_predicate_witness :
    ¬((some (PyVal.int 5) : Option PyVal) = none ∧ (none : Option PyVal) = none) ∧
    exampleDb.delete_by_time_where "person" "age" (some (.int 5)) none =
      exampleDb.search_by_range_where "person" "age" (some (.int 5)) none :=
  ⟨by simp,
    C6_delete_by_time_same_predicate exampleDb "person" "age" (some (.int 5)) none
      (by simp)⟩

end DBSpec
